/-
Verification of the ratcave scene-graph transform core (`ratcave/physical.py`).

The matrices are 4×4 over ℝ.  `Physical` and `PhysicalNode` and their
`update` methods are translated from `ratcave/physical.py`.  The spatial
primitive classes (`Translation`, `Scale`, the rotation classes) live in a
module that is not part of the provided sources, so they are modelled from
the specification, as marked on each definition.  Matrix inversion
(`trans.inverse_matrix`, i.e. `numpy.linalg.inv`) raises on a singular
matrix; this is modelled by guarding each inversion with an invertibility
test and returning `Except.error` carrying the partially-mutated state,
mirroring the in-place sequential mutation of the Python code.
-/
import Mathlib

open Matrix

open scoped Classical

noncomputable section

abbrev Mat4 : Type := Matrix (Fin 4) (Fin 4) ℝ

/-- Modelled from the spec: a position is 3 floating-point components
(x, y, z); its matrix equivalent is a translation matrix with the three
components in the last column. -/
structure Translation where
  x : ℝ
  y : ℝ
  z : ℝ

/-- Modelled from the spec: translation matrix with the 3 components in the
last column. -/
def Translation.to_matrix (t : Translation) : Mat4 :=
  !![1, 0, 0, t.x;
     0, 1, 0, t.y;
     0, 0, 1, t.z;
     0, 0, 0, 1]

/-- Modelled from the spec: a scale is one scalar (uniform) or three
per-axis components. -/
structure Scale where
  x : ℝ
  y : ℝ
  z : ℝ

/-- Modelled from the spec: uniform scale applies the same factor to all
three diagonal entries. -/
def Scale.uniform (s : ℝ) : Scale := ⟨s, s, s⟩

/-- Modelled from the spec: a diagonal scale matrix, homogeneous (4,4)
entry always 1. -/
def Scale.to_matrix (s : Scale) : Mat4 :=
  Matrix.diagonal ![s.x, s.y, s.z, 1]

/-- Modelled from the spec: rotation is a polymorphic value over two
variants, Euler-degrees (three angles) and quaternion (x, y, z, w). -/
inductive Rotation where
  | euler (x y z : ℝ)
  | quaternion (x y z w : ℝ)

/-- Modelled from the spec: degree-to-radian scaling applied before the
standard axis-rotation formulas. -/
def radians (d : ℝ) : ℝ := d * (Real.pi / 180)

/-- Standard rotation about the x axis (homogeneous 4×4). -/
def rotX (a : ℝ) : Mat4 :=
  !![1, 0, 0, 0;
     0, Real.cos a, -Real.sin a, 0;
     0, Real.sin a, Real.cos a, 0;
     0, 0, 0, 1]

/-- Standard rotation about the y axis (homogeneous 4×4). -/
def rotY (a : ℝ) : Mat4 :=
  !![Real.cos a, 0, Real.sin a, 0;
     0, 1, 0, 0;
     -Real.sin a, 0, Real.cos a, 0;
     0, 0, 0, 1]

/-- Standard rotation about the z axis (homogeneous 4×4). -/
def rotZ (a : ℝ) : Mat4 :=
  !![Real.cos a, -Real.sin a, 0, 0;
     Real.sin a, Real.cos a, 0, 0;
     0, 0, 1, 0;
     0, 0, 0, 1]

/-- Modelled from the spec: the standard quaternion-to-rotation-matrix
formula (here with the normalizing factor 2/‖q‖², one documented policy
for non-normalized quaternions). -/
def quatToMatrix (x y z w : ℝ) : Mat4 :=
  let s : ℝ := 2 / (x * x + y * y + z * z + w * w)
  !![1 - s * (y * y + z * z), s * (x * y - z * w), s * (x * z + y * w), 0;
     s * (x * y + z * w), 1 - s * (x * x + z * z), s * (y * z - x * w), 0;
     s * (x * z - y * w), s * (y * z + x * w), 1 - s * (x * x + y * y), 0;
     0, 0, 0, 1]

/-- Modelled from the spec: Euler-degrees composes the axis rotations in a
fixed, explicit order (intrinsic X, then Y, then Z) after degree-to-radian
scaling; quaternion uses the standard formula. -/
def Rotation.to_matrix : Rotation → Mat4
  | Rotation.euler x y z => rotX (radians x) * rotY (radians y) * rotZ (radians z)
  | Rotation.quaternion x y z w => quatToMatrix x y z w

/-- Translated from `Physical` in `ratcave/physical.py`: position,
rotation and scale primitives plus the three derived local matrices. -/
structure Physical where
  pos : Translation
  rot : Rotation
  scale : Scale
  model_matrix : Mat4
  normal_matrix : Mat4
  view_matrix : Mat4

/-- Translated from `Physical.update`.  The Python body mutates in place:
`model_matrix[:] = pos·rot`; `view_matrix[:] = inverse(model_matrix)`
(raises if singular); `model_matrix[:] = model_matrix·scale`;
`normal_matrix[:] = inverse(model_matrixᵀ)` (raises if singular).  An
exception leaves the object in the partially-mutated state, carried here
by `Except.error`. -/
def Physical.update (p : Physical) : Except Physical Physical :=
  if IsUnit (p.pos.to_matrix * p.rot.to_matrix).det then
    if IsUnit ((p.pos.to_matrix * p.rot.to_matrix * p.scale.to_matrix)ᵀ).det then
      Except.ok { p with
        model_matrix := p.pos.to_matrix * p.rot.to_matrix * p.scale.to_matrix,
        view_matrix := (p.pos.to_matrix * p.rot.to_matrix)⁻¹,
        normal_matrix := ((p.pos.to_matrix * p.rot.to_matrix * p.scale.to_matrix)ᵀ)⁻¹ }
    else
      Except.error { p with
        model_matrix := p.pos.to_matrix * p.rot.to_matrix * p.scale.to_matrix,
        view_matrix := (p.pos.to_matrix * p.rot.to_matrix)⁻¹ }
  else
    Except.error { p with
      model_matrix := p.pos.to_matrix * p.rot.to_matrix }

/-- Argument shapes accepted by the `pos` setter in `ratcave/physical.py`:
a `Translation` instance, or an iterable unpacked into `Translation(*coords)`
(three components, per the spec's data model). -/
inductive PosArg where
  | translation (t : Translation)
  | seq (x y z : ℝ)

/-- Translated from the `pos` setter of `Physical`. -/
def Physical.setPos (p : Physical) (a : PosArg) : Physical :=
  match a with
  | PosArg.translation t => { p with pos := t }
  | PosArg.seq x y z => { p with pos := ⟨x, y, z⟩ }

/-- Argument shapes accepted by the `rot` setter: a rotation instance, an
iterable of reals, or a non-iterable value. -/
inductive RotArg where
  | rotation (r : Rotation)
  | seq (xs : List ℝ)
  | scalar (x : ℝ)

/-- The `ValueError` raised by the `rot` setter on a non-iterable,
non-rotation argument. -/
inductive ValueErr where
  | valueError
deriving DecidableEq

/-- Translated from the `rot` setter of `Physical`: a rotation instance is
stored as-is; an iterable of length 3 becomes Euler degrees, of length 4 a
quaternion; any other iterable length falls through the `if`/`elif` chain
with no `else`, leaving the rotation unchanged and raising nothing; a
non-iterable raises `ValueError`. -/
def Physical.setRot (p : Physical) (a : RotArg) : Except ValueErr Physical :=
  match a with
  | RotArg.rotation r => Except.ok { p with rot := r }
  | RotArg.seq [x, y, z] => Except.ok { p with rot := Rotation.euler x y z }
  | RotArg.seq [x, y, z, w] => Except.ok { p with rot := Rotation.quaternion x y z w }
  | RotArg.seq _ => Except.ok p
  | RotArg.scalar _ => Except.error ValueErr.valueError

/-- Argument shapes accepted by the `scale` setter: a `Scale` instance, an
iterable unpacked into `Scale(*coords)` (three per-axis components, per the
spec), or a scalar for uniform scale. -/
inductive ScaleArg where
  | scaleValue (s : Scale)
  | seq (x y z : ℝ)
  | scalar (c : ℝ)

/-- Translated from the `scale` setter of `Physical`. -/
def Physical.setScale (p : Physical) (a : ScaleArg) : Physical :=
  match a with
  | ScaleArg.scaleValue s => { p with scale := s }
  | ScaleArg.seq x y z => { p with scale := ⟨x, y, z⟩ }
  | ScaleArg.scalar c => { p with scale := Scale.uniform c }

/-- Errors a `Physical(...)` construction can raise: an arity error from
`RotationEulerDegrees(*rotation)` when the rotation argument does not have
exactly three components (the Euler class takes three angles, per the
spec), or a singular-matrix error propagated from the initial `update()`. -/
inductive InitErr where
  | typeErrorArity
  | singularMatrixError
deriving DecidableEq

/-- Translated from `Physical.__init__`: stores
`RotationEulerDegrees(*rotation)` (always the Euler variant, whatever the
argument length), `Translation(*position)`, `Scale(scale)`, zero matrices,
then calls `update()`. -/
def Physical.init (position : ℝ × ℝ × ℝ) (rotation : List ℝ) (scale : ℝ) :
    Except InitErr Physical :=
  match rotation with
  | [x, y, z] =>
    match (Physical.mk ⟨position.1, position.2.1, position.2.2⟩
        (Rotation.euler x y z) (Scale.uniform scale) 0 0 0).update with
    | Except.ok p => Except.ok p
    | Except.error _ => Except.error InitErr.singularMatrixError
  | _ => Except.error InitErr.typeErrorArity

/-- Modelled from the spec: the fresh global matrices of a node's parent
that `PhysicalNode.update` reads (`parent.model_matrix_global` and
`parent.normal_matrix_global`). -/
structure ParentGlobals where
  model_matrix_global : Mat4
  normal_matrix_global : Mat4

/-- Translated from `PhysicalNode` in `ratcave/physical.py`: a `Physical`
plus the parent back-reference (from the `SceneNode` mixin, modelled from
the spec as at most one parent) and the three global matrices. -/
structure PhysicalNode extends Physical where
  parent : Option ParentGlobals
  model_matrix_global : Mat4
  normal_matrix_global : Mat4
  view_matrix_global : Mat4

/-- Translated from `PhysicalNode.update`: runs the local update first
(an exception there propagates before the globals are touched), then if
the node has a parent sets
`model_matrix_global = parent.model_matrix_global · model_matrix`,
`normal_matrix_global = parent.normal_matrix_global · normal_matrix`, and
`view_matrix_global = parent.normal_matrix_global · normal_matrix`
(the source's line 97 repeats the normal-matrix composition); with no
parent all three globals are copied from the local matrices. -/
def PhysicalNode.update (n : PhysicalNode) : Except PhysicalNode PhysicalNode :=
  match n.toPhysical.update with
  | Except.error p => Except.error { n with toPhysical := p }
  | Except.ok p =>
    match n.parent with
    | some par => Except.ok
        { n with toPhysical := p,
                 model_matrix_global := par.model_matrix_global * p.model_matrix,
                 normal_matrix_global := par.normal_matrix_global * p.normal_matrix,
                 view_matrix_global := par.normal_matrix_global * p.normal_matrix }
    | none => Except.ok
        { n with toPhysical := p,
                 model_matrix_global := p.model_matrix,
                 normal_matrix_global := p.normal_matrix,
                 view_matrix_global := p.view_matrix }

/-- Modelled from the spec: the composition the spec mandates for the
global view matrix, `inverse(parent.model_matrix_global × local pre-scale
model matrix)`. -/
def specViewMatrixGlobal (parentModelGlobal localPreScaleModel : Mat4) : Mat4 :=
  (parentModelGlobal * localPreScaleModel)⁻¹

/-! Helper lemmas about the primitive matrices. -/

theorem translation_zero : (Translation.mk 0 0 0).to_matrix = 1 := by
  ext i j
  fin_cases i <;> fin_cases j <;>
    simp [Translation.to_matrix, Matrix.one_apply, Matrix.vecHead, Matrix.vecTail]

theorem translation_mul (a b c d e f : ℝ) :
    (Translation.mk a b c).to_matrix * (Translation.mk d e f).to_matrix =
      (Translation.mk (a + d) (b + e) (c + f)).to_matrix := by
  ext i j
  fin_cases i <;> fin_cases j <;>
    (simp [Translation.to_matrix, Matrix.mul_apply, Fin.sum_univ_four,
      Matrix.vecHead, Matrix.vecTail]; try ring)

theorem translation_right_inv (a b c : ℝ) :
    (Translation.mk a b c).to_matrix * (Translation.mk (-a) (-b) (-c)).to_matrix = 1 := by
  rw [translation_mul]
  simp [translation_zero]

theorem translation_inv (a b c : ℝ) :
    ((Translation.mk a b c).to_matrix)⁻¹ = (Translation.mk (-a) (-b) (-c)).to_matrix :=
  Matrix.inv_eq_right_inv (translation_right_inv a b c)

theorem radians_zero : radians 0 = 0 := by simp [radians]

theorem rotX_zero : rotX 0 = 1 := by
  ext i j
  fin_cases i <;> fin_cases j <;>
    simp [rotX, Matrix.one_apply, Matrix.vecHead, Matrix.vecTail]

theorem rotY_zero : rotY 0 = 1 := by
  ext i j
  fin_cases i <;> fin_cases j <;>
    simp [rotY, Matrix.one_apply, Matrix.vecHead, Matrix.vecTail]

theorem rotZ_zero : rotZ 0 = 1 := by
  ext i j
  fin_cases i <;> fin_cases j <;>
    simp [rotZ, Matrix.one_apply, Matrix.vecHead, Matrix.vecTail]

theorem euler_zero : (Rotation.euler 0 0 0).to_matrix = 1 := by
  simp [Rotation.to_matrix, radians_zero, rotX_zero, rotY_zero, rotZ_zero]

theorem rotX_mul_transpose (a : ℝ) : rotX a * (rotX a)ᵀ = 1 := by
  ext i j
  fin_cases i <;> fin_cases j <;>
    (simp [rotX, Matrix.mul_apply, Fin.sum_univ_four, Matrix.one_apply,
      Matrix.vecHead, Matrix.vecTail]) <;>
    nlinarith [Real.sin_sq_add_cos_sq a]

theorem rotY_mul_transpose (a : ℝ) : rotY a * (rotY a)ᵀ = 1 := by
  ext i j
  fin_cases i <;> fin_cases j <;>
    (simp [rotY, Matrix.mul_apply, Fin.sum_univ_four, Matrix.one_apply,
      Matrix.vecHead, Matrix.vecTail]) <;>
    nlinarith [Real.sin_sq_add_cos_sq a]

theorem rotZ_mul_transpose (a : ℝ) : rotZ a * (rotZ a)ᵀ = 1 := by
  ext i j
  fin_cases i <;> fin_cases j <;>
    (simp [rotZ, Matrix.mul_apply, Fin.sum_univ_four, Matrix.one_apply,
      Matrix.vecHead, Matrix.vecTail]) <;>
    nlinarith [Real.sin_sq_add_cos_sq a]

theorem mul_mul_transpose_eq_one (R S : Mat4) (hR : R * Rᵀ = 1) (hS : S * Sᵀ = 1) :
    (R * S) * (R * S)ᵀ = 1 := by
  rw [Matrix.transpose_mul, mul_assoc, ← mul_assoc S Sᵀ Rᵀ, hS, one_mul, hR]

theorem euler_orthogonal (x y z : ℝ) :
    (Rotation.euler x y z).to_matrix * ((Rotation.euler x y z).to_matrix)ᵀ = 1 := by
  simp only [Rotation.to_matrix]
  exact mul_mul_transpose_eq_one _ _
    (mul_mul_transpose_eq_one _ _ (rotX_mul_transpose _) (rotY_mul_transpose _))
    (rotZ_mul_transpose _)

theorem scale_uniform_one : (Scale.uniform 1).to_matrix = 1 := by
  have h : (![(1 : ℝ), 1, 1, 1]) = fun _ => 1 := by
    funext i; fin_cases i <;> rfl
  simp [Scale.to_matrix, Scale.uniform, h]

theorem scale_det (s : Scale) : (s.to_matrix).det = s.x * s.y * s.z := by
  simp [Scale.to_matrix, Matrix.det_diagonal, Fin.prod_univ_four,
    Matrix.vecHead, Matrix.vecTail]

/-! Helper lemmas characterizing `update`. -/

theorem except_ok_inj {α β : Type} {a b : α} (h : (Except.ok a : Except β α) = Except.ok b) :
    a = b := by
  cases h; rfl

theorem except_error_inj {α β : Type} {a b : β} (h : (Except.error a : Except β α) = Except.error b) :
    a = b := by
  cases h; rfl

theorem Physical.update_ok_of {p : Physical}
    (h1 : IsUnit (p.pos.to_matrix * p.rot.to_matrix).det)
    (h2 : IsUnit ((p.pos.to_matrix * p.rot.to_matrix * p.scale.to_matrix)ᵀ).det) :
    p.update = Except.ok
      { p with model_matrix := p.pos.to_matrix * p.rot.to_matrix * p.scale.to_matrix,
               view_matrix := (p.pos.to_matrix * p.rot.to_matrix)⁻¹,
               normal_matrix := ((p.pos.to_matrix * p.rot.to_matrix * p.scale.to_matrix)ᵀ)⁻¹ } := by
  unfold Physical.update
  rw [if_pos h1, if_pos h2]

theorem Physical.update_error_at_normal {p : Physical}
    (h1 : IsUnit (p.pos.to_matrix * p.rot.to_matrix).det)
    (h2 : ¬ IsUnit ((p.pos.to_matrix * p.rot.to_matrix * p.scale.to_matrix)ᵀ).det) :
    p.update = Except.error
      { p with model_matrix := p.pos.to_matrix * p.rot.to_matrix * p.scale.to_matrix,
               view_matrix := (p.pos.to_matrix * p.rot.to_matrix)⁻¹ } := by
  unfold Physical.update
  rw [if_pos h1, if_neg h2]

theorem Physical.update_error_at_view {p : Physical}
    (h1 : ¬ IsUnit (p.pos.to_matrix * p.rot.to_matrix).det) :
    p.update = Except.error
      { p with model_matrix := p.pos.to_matrix * p.rot.to_matrix } := by
  unfold Physical.update
  rw [if_neg h1]

theorem Physical.update_ok_elim {p q : Physical} (h : p.update = Except.ok q) :
    IsUnit (p.pos.to_matrix * p.rot.to_matrix).det ∧
    IsUnit ((p.pos.to_matrix * p.rot.to_matrix * p.scale.to_matrix)ᵀ).det ∧
    q = { p with model_matrix := p.pos.to_matrix * p.rot.to_matrix * p.scale.to_matrix,
                 view_matrix := (p.pos.to_matrix * p.rot.to_matrix)⁻¹,
                 normal_matrix := ((p.pos.to_matrix * p.rot.to_matrix * p.scale.to_matrix)ᵀ)⁻¹ } := by
  unfold Physical.update at h
  split_ifs at h with h1 h2
  exact ⟨h1, h2, (except_ok_inj h).symm⟩

theorem Physical.update_error_elim {p e : Physical} (h : p.update = Except.error e) :
    (¬ IsUnit (p.pos.to_matrix * p.rot.to_matrix).det ∧
      e = { p with model_matrix := p.pos.to_matrix * p.rot.to_matrix }) ∨
    (IsUnit (p.pos.to_matrix * p.rot.to_matrix).det ∧
      ¬ IsUnit ((p.pos.to_matrix * p.rot.to_matrix * p.scale.to_matrix)ᵀ).det ∧
      e = { p with model_matrix := p.pos.to_matrix * p.rot.to_matrix * p.scale.to_matrix,
                   view_matrix := (p.pos.to_matrix * p.rot.to_matrix)⁻¹ }) := by
  unfold Physical.update at h
  split_ifs at h with h1 h2
  · exact Or.inr ⟨h1, h2, (except_error_inj h).symm⟩
  · exact Or.inl ⟨h1, (except_error_inj h).symm⟩

theorem PhysicalNode.update_ok_parent {n : PhysicalNode} {p : Physical} {par : ParentGlobals}
    (hp : n.toPhysical.update = Except.ok p) (hpar : n.parent = some par) :
    n.update = Except.ok
      { n with toPhysical := p,
               model_matrix_global := par.model_matrix_global * p.model_matrix,
               normal_matrix_global := par.normal_matrix_global * p.normal_matrix,
               view_matrix_global := par.normal_matrix_global * p.normal_matrix } := by
  unfold PhysicalNode.update
  rw [hp, hpar]

theorem PhysicalNode.update_ok_root {n : PhysicalNode} {p : Physical}
    (hp : n.toPhysical.update = Except.ok p) (hpar : n.parent = none) :
    n.update = Except.ok
      { n with toPhysical := p,
               model_matrix_global := p.model_matrix,
               normal_matrix_global := p.normal_matrix,
               view_matrix_global := p.view_matrix } := by
  unfold PhysicalNode.update
  rw [hp, hpar]

theorem PhysicalNode.update_error_of {n : PhysicalNode} {p : Physical}
    (hp : n.toPhysical.update = Except.error p) :
    n.update = Except.error { n with toPhysical := p } := by
  unfold PhysicalNode.update
  rw [hp]

/-! Concrete states used to evaluate the definitions. -/

/-- The state built by the default constructor arguments: origin position,
zero Euler rotation, unit uniform scale, zero matrices. -/
def p0 : Physical :=
  ⟨⟨0, 0, 0⟩, Rotation.euler 0 0 0, Scale.uniform 1, 0, 0, 0⟩

/-- The state `p0` reaches after a successful `update`: all matrices are
the identity. -/
def q0 : Physical :=
  ⟨⟨0, 0, 0⟩, Rotation.euler 0 0 0, Scale.uniform 1, 1, 1, 1⟩

theorem p0_update : p0.update = Except.ok q0 := by
  have hP : p0.pos.to_matrix = 1 := translation_zero
  have hR : p0.rot.to_matrix = 1 := euler_zero
  have hS : p0.scale.to_matrix = 1 := scale_uniform_one
  have h1 : IsUnit (p0.pos.to_matrix * p0.rot.to_matrix).det := by
    rw [hP, hR]; simp
  have h2 : IsUnit ((p0.pos.to_matrix * p0.rot.to_matrix * p0.scale.to_matrix)ᵀ).det := by
    rw [hP, hR, hS]; simp
  rw [Physical.update_ok_of h1 h2]
  simp [p0, q0, translation_zero, euler_zero, scale_uniform_one]

/-- Identity parent globals, as a root node at the origin would supply. -/
def pg1 : ParentGlobals := ⟨1, 1⟩

/-- A root node (no parent) in the default state. -/
def nRoot : PhysicalNode := ⟨p0, none, 0, 0, 0⟩

/-- The state `nRoot` reaches after `update`. -/
def nRootU : PhysicalNode := ⟨q0, none, 1, 1, 1⟩

theorem nRoot_update : nRoot.update = Except.ok nRootU := by
  have hp : nRoot.toPhysical.update = Except.ok q0 := p0_update
  have hpar : nRoot.parent = none := rfl
  rw [PhysicalNode.update_ok_root hp hpar]
  simp [nRoot, nRootU, q0]

/-- A parented node in the default state, under identity parent globals. -/
def nChild : PhysicalNode := ⟨p0, some pg1, 0, 0, 0⟩

/-- The state `nChild` reaches after `update`. -/
def nChildU : PhysicalNode := ⟨q0, some pg1, 1, 1, 1⟩

theorem nChild_update : nChild.update = Except.ok nChildU := by
  have hp : nChild.toPhysical.update = Except.ok q0 := p0_update
  have hpar : nChild.parent = some pg1 := rfl
  rw [PhysicalNode.update_ok_parent hp hpar]
  simp [nChild, nChildU, q0, pg1]

/-- A state with a degenerate (zero) uniform scale and zero matrices. -/
def pZeroScale : Physical :=
  ⟨⟨0, 0, 0⟩, Rotation.euler 0 0 0, Scale.uniform 0, 0, 0, 0⟩

/-- The partially-mutated state `pZeroScale` is left in when `update`
raises at the normal-matrix inversion: model and view have been written,
normal still holds its pre-call value. -/
def eZeroScale : Physical :=
  ⟨⟨0, 0, 0⟩, Rotation.euler 0 0 0, Scale.uniform 0, (Scale.uniform 0).to_matrix, 0, 1⟩

theorem pZeroScale_update : pZeroScale.update = Except.error eZeroScale := by
  have hP : pZeroScale.pos.to_matrix = 1 := translation_zero
  have hR : pZeroScale.rot.to_matrix = 1 := euler_zero
  have h1 : IsUnit (pZeroScale.pos.to_matrix * pZeroScale.rot.to_matrix).det := by
    rw [hP, hR]; simp
  have h2 : ¬ IsUnit ((pZeroScale.pos.to_matrix * pZeroScale.rot.to_matrix *
      pZeroScale.scale.to_matrix)ᵀ).det := by
    rw [hP, hR, one_mul, one_mul, Matrix.det_transpose, scale_det]
    simp [pZeroScale, Scale.uniform, not_isUnit_zero]
  rw [Physical.update_error_at_normal h1 h2]
  simp [pZeroScale, eZeroScale, translation_zero, euler_zero]

/-- A state translated one unit along x, with identity rotation and unit
scale. -/
def pShift : Physical :=
  ⟨⟨1, 0, 0⟩, Rotation.euler 0 0 0, Scale.uniform 1, 0, 0, 0⟩

/-- The state `pShift` reaches after `update`: the model matrix is the
translation, the view matrix its inverse, and the normal matrix the
inverse of its transpose (the transposed inverse translation). -/
def qShift : Physical :=
  ⟨⟨1, 0, 0⟩, Rotation.euler 0 0 0, Scale.uniform 1,
    (Translation.mk 1 0 0).to_matrix,
    ((Translation.mk (-1) 0 0).to_matrix)ᵀ,
    (Translation.mk (-1) 0 0).to_matrix⟩

theorem pShift_update : pShift.update = Except.ok qShift := by
  have hP : pShift.pos.to_matrix = (Translation.mk 1 0 0).to_matrix := rfl
  have hR : pShift.rot.to_matrix = 1 := euler_zero
  have hS : pShift.scale.to_matrix = 1 := scale_uniform_one
  have hisU : IsUnit ((Translation.mk 1 0 0).to_matrix).det :=
    Matrix.isUnit_det_of_right_inverse (translation_right_inv 1 0 0)
  have h1 : IsUnit (pShift.pos.to_matrix * pShift.rot.to_matrix).det := by
    rw [hP, hR, mul_one]; exact hisU
  have h2 : IsUnit ((pShift.pos.to_matrix * pShift.rot.to_matrix *
      pShift.scale.to_matrix)ᵀ).det := by
    rw [hP, hR, hS, mul_one, mul_one, Matrix.det_transpose]; exact hisU
  have hinv : ((Translation.mk 1 0 0).to_matrix)⁻¹ = (Translation.mk (-1) 0 0).to_matrix := by
    rw [translation_inv]; norm_num
  have hninv : (((Translation.mk 1 0 0).to_matrix)ᵀ)⁻¹ =
      ((Translation.mk (-1) 0 0).to_matrix)ᵀ := by
    rw [← Matrix.transpose_nonsing_inv, hinv]
  rw [Physical.update_ok_of h1 h2]
  simp only [hR, hS, mul_one]
  simp [pShift, qShift, hinv, hninv]

/-- A parented node translated one unit along x, under identity parent
globals. -/
def nShift : PhysicalNode := ⟨pShift, some pg1, 0, 0, 0⟩

/-- The state `nShift` reaches after `update`: the global view matrix is
`parent.normal_matrix_global · normal_matrix` (the transposed inverse
translation), exactly as line 97 of the source computes it. -/
def nShiftU : PhysicalNode :=
  ⟨qShift, some pg1,
    (Translation.mk 1 0 0).to_matrix,
    ((Translation.mk (-1) 0 0).to_matrix)ᵀ,
    ((Translation.mk (-1) 0 0).to_matrix)ᵀ⟩

theorem nShift_update : nShift.update = Except.ok nShiftU := by
  have hp : nShift.toPhysical.update = Except.ok qShift := pShift_update
  have hpar : nShift.parent = some pg1 := rfl
  rw [PhysicalNode.update_ok_parent hp hpar]
  simp [nShift, nShiftU, qShift, pg1]

/-! Entrywise inequalities used by the counterexamples. -/

theorem translation_transpose_ne :
    ((Translation.mk (-1) 0 0).to_matrix)ᵀ ≠ (Translation.mk (-1) 0 0).to_matrix := by
  intro hEq
  have h2 : (((Translation.mk (-1) 0 0).to_matrix)ᵀ) 0 3 =
      ((Translation.mk (-1) 0 0).to_matrix) 0 3 := by rw [hEq]
  simp [Translation.to_matrix, Matrix.transpose_apply, Matrix.vecHead, Matrix.vecTail] at h2

theorem translation_transpose_ne_one :
    ((Translation.mk (-1) 0 0).to_matrix)ᵀ ≠ (1 : Mat4) := by
  intro hEq
  have h2 : (((Translation.mk (-1) 0 0).to_matrix)ᵀ) 3 0 = (1 : Mat4) 3 0 := by rw [hEq]
  simp [Translation.to_matrix, Matrix.transpose_apply, Matrix.one_apply,
    Matrix.vecHead, Matrix.vecTail] at h2

theorem one_ne_zero_mat4 : (1 : Mat4) ≠ 0 := by
  intro hEq
  have h2 : (1 : Mat4) 0 0 = (0 : Mat4) 0 0 := by rw [hEq]
  simp [Matrix.one_apply] at h2

/-! The claims. -/

/-- C1: for a parented node, `update()` is claimed to derive
`view_matrix_global` from the global model matrix
(`inverse(parent.model_matrix_global × pre-scale local model)`); the code
instead reuses the normal-matrix composition.  At a child translated one
unit along x under identity parent globals the two values differ, so the
code contradicts the spec-mandated derivation. -/
theorem global_view_matrix_uses_normal_composition :
    nShift.update = Except.ok nShiftU ∧
    nShiftU.view_matrix_global ≠
      specViewMatrixGlobal pg1.model_matrix_global
        (nShift.pos.to_matrix * nShift.rot.to_matrix) := by
  refine ⟨nShift_update, ?_⟩
  have hspec : specViewMatrixGlobal pg1.model_matrix_global
      (nShift.pos.to_matrix * nShift.rot.to_matrix) =
      (Translation.mk (-1) 0 0).to_matrix := by
    have hR : nShift.rot.to_matrix = 1 := euler_zero
    have hP : nShift.pos.to_matrix = (Translation.mk 1 0 0).to_matrix := rfl
    rw [specViewMatrixGlobal, hR, hP, mul_one]
    have hpg : pg1.model_matrix_global = 1 := rfl
    rw [hpg, one_mul, translation_inv]
    norm_num
  have hview : nShiftU.view_matrix_global = ((Translation.mk (-1) 0 0).to_matrix)ᵀ := rfl
  rw [hview, hspec]
  exact translation_transpose_ne

/-- C2: after a successful `update()` the local view matrix equals the
inverse of `position.to_matrix() × rotation.to_matrix()`, and its value
does not depend on the stored scale. -/
theorem update_view_matrix_eq_inv_pos_rot (p q : Physical) (h : p.update = Except.ok q) :
    q.view_matrix = (p.pos.to_matrix * p.rot.to_matrix)⁻¹ ∧
    ∀ s q', ({ p with scale := s } : Physical).update = Except.ok q' →
      q'.view_matrix = q.view_matrix := by
  obtain ⟨h1, h2, hq⟩ := Physical.update_ok_elim h
  subst hq
  refine ⟨rfl, ?_⟩
  intro s q' h'
  obtain ⟨h1', h2', hq'⟩ := Physical.update_ok_elim h'
  subst hq'
  rfl

theorem update_view_matrix_eq_inv_pos_rot_witness :
    q0.view_matrix = (p0.pos.to_matrix * p0.rot.to_matrix)⁻¹ :=
  (update_view_matrix_eq_inv_pos_rot p0 q0 p0_update).1

/-- C3: for a parented node whose parent globals are fresh, a successful
`update()` sets `model_matrix_global` to
`parent.model_matrix_global × model_matrix` and `normal_matrix_global` to
`parent.normal_matrix_global × normal_matrix`. -/
theorem update_child_global_matrices (n n' : PhysicalNode) (par : ParentGlobals)
    (hpar : n.parent = some par) (h : n.update = Except.ok n') :
    n'.model_matrix_global = par.model_matrix_global * n'.model_matrix ∧
    n'.normal_matrix_global = par.normal_matrix_global * n'.normal_matrix := by
  cases hu : n.toPhysical.update with
  | error p => rw [PhysicalNode.update_error_of hu] at h; cases h
  | ok p =>
    rw [PhysicalNode.update_ok_parent hu hpar] at h
    have hn := except_ok_inj h
    subst hn
    exact ⟨rfl, rfl⟩

theorem update_child_global_matrices_witness :
    nChild.parent = some pg1 ∧
    nChildU.model_matrix_global = pg1.model_matrix_global * nChildU.model_matrix ∧
    nChildU.normal_matrix_global = pg1.normal_matrix_global * nChildU.normal_matrix :=
  ⟨rfl, update_child_global_matrices nChild nChildU pg1 rfl nChild_update⟩

/-- C4: for a node with no parent, a successful `update()` leaves all
three global matrices equal to their local counterparts. -/
theorem update_root_global_matrices (n n' : PhysicalNode)
    (hpar : n.parent = none) (h : n.update = Except.ok n') :
    n'.model_matrix_global = n'.model_matrix ∧
    n'.normal_matrix_global = n'.normal_matrix ∧
    n'.view_matrix_global = n'.view_matrix := by
  cases hu : n.toPhysical.update with
  | error p => rw [PhysicalNode.update_error_of hu] at h; cases h
  | ok p =>
    rw [PhysicalNode.update_ok_root hu hpar] at h
    have hn := except_ok_inj h
    subst hn
    exact ⟨rfl, rfl, rfl⟩

theorem update_root_global_matrices_witness :
    nRoot.parent = none ∧
    nRootU.model_matrix_global = nRootU.model_matrix ∧
    nRootU.normal_matrix_global = nRootU.normal_matrix ∧
    nRootU.view_matrix_global = nRootU.view_matrix :=
  ⟨rfl, update_root_global_matrices nRoot nRootU rfl nRoot_update⟩
/-- C5 counterexample: assigning a 5-element sequence to the rotation
raises nothing at the point of assignment (the `if`/`elif` chain has no
`else` for iterables) and leaves the state unchanged, contradicting the
claimed `InvalidRotationArity` error. -/
theorem setRot_length_five_silently_ignored :
    p0.setRot (RotArg.seq [1, 2, 3, 4, 5]) = Except.ok p0 := rfl

/-- C5 (amended): a 3-element sequence stores an Euler-degrees rotation
and a 4-element sequence a quaternion; a sequence of any other length is
silently ignored (no error, rotation unchanged); only a non-iterable,
non-rotation value raises, and it raises `ValueError`. -/
theorem setRot_cases (p : Physical) (a b c d : ℝ) (xs : List ℝ) (x : ℝ) :
    p.setRot (RotArg.seq [a, b, c]) = Except.ok { p with rot := Rotation.euler a b c } ∧
    p.setRot (RotArg.seq [a, b, c, d]) = Except.ok { p with rot := Rotation.quaternion a b c d } ∧
    (xs.length ≠ 3 → xs.length ≠ 4 → p.setRot (RotArg.seq xs) = Except.ok p) ∧
    p.setRot (RotArg.scalar x) = Except.error ValueErr.valueError := by
  refine ⟨rfl, rfl, ?_, rfl⟩
  intro h3 h4
  match xs with
  | [] => rfl
  | [_] => rfl
  | [_, _] => rfl
  | [_, _, _] => exact absurd rfl h3
  | [_, _, _, _] => exact absurd rfl h4
  | _ :: _ :: _ :: _ :: _ :: _ => rfl

theorem setRot_cases_witness :
    p0.setRot (RotArg.seq [0, 0, 0, 0, 0]) = Except.ok p0 :=
  (setRot_cases p0 1 2 3 4 [0, 0, 0, 0, 0] 0).2.2.1 (by simp) (by simp)

/-- C6 counterexample: with a zero uniform scale, `update()` fails at the
normal-matrix inversion but has already mutated the view matrix (and the
model matrix), so the call is not atomic. -/
theorem update_failure_mutates_view_matrix :
    pZeroScale.update = Except.error eZeroScale ∧
    eZeroScale.view_matrix ≠ pZeroScale.view_matrix := by
  refine ⟨pZeroScale_update, ?_⟩
  have h1 : eZeroScale.view_matrix = (1 : Mat4) := rfl
  have h0 : pZeroScale.view_matrix = (0 : Mat4) := rfl
  rw [h1, h0]
  exact one_ne_zero_mat4

/-- C6 (amended): a failing `update()` never touches the normal matrix or
the primitives, but the model matrix has already been recomputed (and, if
the failure happened at the normal-matrix step, the view matrix too). -/
theorem update_failure_partial_mutation (p e : Physical) (h : p.update = Except.error e) :
    e.normal_matrix = p.normal_matrix ∧ e.pos = p.pos ∧ e.rot = p.rot ∧ e.scale = p.scale ∧
    (e.model_matrix = p.pos.to_matrix * p.rot.to_matrix ∧ e.view_matrix = p.view_matrix ∨
     e.model_matrix = p.pos.to_matrix * p.rot.to_matrix * p.scale.to_matrix ∧
       e.view_matrix = (p.pos.to_matrix * p.rot.to_matrix)⁻¹) := by
  rcases Physical.update_error_elim h with ⟨h1, he⟩ | ⟨h1, h2, he⟩ <;> subst he <;> simp

theorem update_failure_partial_mutation_witness :
    eZeroScale.normal_matrix = pZeroScale.normal_matrix ∧
    eZeroScale.pos = pZeroScale.pos ∧ eZeroScale.rot = pZeroScale.rot ∧
    eZeroScale.scale = pZeroScale.scale ∧
    (eZeroScale.model_matrix = pZeroScale.pos.to_matrix * pZeroScale.rot.to_matrix ∧
       eZeroScale.view_matrix = pZeroScale.view_matrix ∨
     eZeroScale.model_matrix = pZeroScale.pos.to_matrix * pZeroScale.rot.to_matrix *
         pZeroScale.scale.to_matrix ∧
       eZeroScale.view_matrix = (pZeroScale.pos.to_matrix * pZeroScale.rot.to_matrix)⁻¹) :=
  update_failure_partial_mutation pZeroScale eZeroScale pZeroScale_update

/-- C7: each setter replaces only its own stored primitive; the three
matrices and the other two primitives are untouched (on the rotation
setter, in every outcome including the silently-ignored and error cases).
-/
theorem setters_do_not_touch_matrices (p : Physical) (pa : PosArg) (ra : RotArg)
    (sa : ScaleArg) :
    ((p.setPos pa).model_matrix = p.model_matrix ∧
      (p.setPos pa).normal_matrix = p.normal_matrix ∧
      (p.setPos pa).view_matrix = p.view_matrix ∧
      (p.setPos pa).rot = p.rot ∧ (p.setPos pa).scale = p.scale) ∧
    (((p.setRot ra).toOption.getD p).model_matrix = p.model_matrix ∧
      ((p.setRot ra).toOption.getD p).normal_matrix = p.normal_matrix ∧
      ((p.setRot ra).toOption.getD p).view_matrix = p.view_matrix ∧
      ((p.setRot ra).toOption.getD p).pos = p.pos ∧
      ((p.setRot ra).toOption.getD p).scale = p.scale) ∧
    ((p.setScale sa).model_matrix = p.model_matrix ∧
      (p.setScale sa).normal_matrix = p.normal_matrix ∧
      (p.setScale sa).view_matrix = p.view_matrix ∧
      (p.setScale sa).pos = p.pos ∧ (p.setScale sa).rot = p.rot) := by
  refine ⟨?_, ?_, ?_⟩
  · cases pa <;> simp [Physical.setPos]
  · rcases ra with r | xs | x
    · simp [Physical.setRot, Except.toOption]
    · rcases xs with _ | ⟨a, _ | ⟨b, _ | ⟨c, _ | ⟨d, _ | ⟨e, tl⟩⟩⟩⟩⟩ <;>
        simp [Physical.setRot, Except.toOption]
    · simp [Physical.setRot, Except.toOption]
  · cases sa <;> simp [Physical.setScale]

/-- C8 counterexample: constructing with a 4-element rotation argument
raises an arity error (the constructor always unpacks into the Euler
class), instead of yielding a quaternion rotation. -/
theorem init_four_rotation_values_error :
    Physical.init (0, 0, 0) [1, 2, 3, 4] 1 = Except.error InitErr.typeErrorArity := rfl

/-- C8 (amended): constructing with a 3-element rotation stores an
Euler-degrees rotation holding the same three values (readable back after
the constructor's `update()` succeeds); constructing with a 4-element
rotation fails with an arity error rather than storing a quaternion. -/
theorem init_rotation_round_trip (px py pz a b c d s : ℝ) :
    (∀ p, Physical.init (px, py, pz) [a, b, c] s = Except.ok p →
      p.rot = Rotation.euler a b c) ∧
    Physical.init (px, py, pz) [a, b, c, d] s = Except.error InitErr.typeErrorArity := by
  constructor
  · intro p hp
    have h : Physical.init (px, py, pz) [a, b, c] s =
        match (Physical.mk ⟨px, py, pz⟩ (Rotation.euler a b c)
            (Scale.uniform s) 0 0 0).update with
        | Except.ok q => Except.ok q
        | Except.error _ => Except.error InitErr.singularMatrixError := rfl
    rw [h] at hp
    cases hu : (Physical.mk ⟨px, py, pz⟩ (Rotation.euler a b c)
        (Scale.uniform s) 0 0 0).update with
    | error e => rw [hu] at hp; cases hp
    | ok q =>
      rw [hu] at hp
      have hqp := except_ok_inj hp
      subst hqp
      obtain ⟨h1, h2, hq⟩ := Physical.update_ok_elim hu
      rw [hq]
  · rfl

theorem init_rotation_round_trip_witness :
    Physical.init (0, 0, 0) [0, 0, 0] 1 = Except.ok q0 ∧
    q0.rot = Rotation.euler 0 0 0 := by
  have h : Physical.init (0, 0, 0) [0, 0, 0] 1 =
      match p0.update with
      | Except.ok q => Except.ok q
      | Except.error _ => Except.error InitErr.singularMatrixError := rfl
  have hinit : Physical.init (0, 0, 0) [0, 0, 0] 1 = Except.ok q0 := by
    rw [h, p0_update]
  exact ⟨hinit, (init_rotation_round_trip 0 0 0 0 0 0 0 1).1 q0 hinit⟩
/-- C9 counterexample: with identity scale but a nonzero position, the
normal matrix after `update()` is the inverse transpose of the full
position-rotation product, not the rotation matrix itself. -/
theorem identity_scale_normal_matrix_ne_rotation :
    pShift.update = Except.ok qShift ∧ qShift.normal_matrix ≠ pShift.rot.to_matrix := by
  refine ⟨pShift_update, ?_⟩
  have hn : qShift.normal_matrix = ((Translation.mk (-1) 0 0).to_matrix)ᵀ := rfl
  have hr : pShift.rot.to_matrix = 1 := euler_zero
  rw [hn, hr]
  exact translation_transpose_ne_one

/-- C9 (amended): for any node whose rotation matrix is orthonormal (all
Euler rotations are, by `euler_orthogonal`): a zero scale factor on any
axis makes `update()` fail at the normal-matrix inversion, after the view
matrix has already been derived; with identity uniform scale `update()`
succeeds and the recomputed normal matrix equals the rotation matrix
provided the position is additionally at the origin. -/
theorem update_degenerate_and_identity_scale (p : Physical)
    (horth : p.rot.to_matrix * (p.rot.to_matrix)ᵀ = 1) :
    ((p.scale.x = 0 ∨ p.scale.y = 0 ∨ p.scale.z = 0) →
      p.update = Except.error
        { p with model_matrix := p.pos.to_matrix * p.rot.to_matrix * p.scale.to_matrix,
                 view_matrix := (p.pos.to_matrix * p.rot.to_matrix)⁻¹ }) ∧
    (p.scale = Scale.uniform 1 →
      p.update = Except.ok
        { p with model_matrix := p.pos.to_matrix * p.rot.to_matrix * p.scale.to_matrix,
                 view_matrix := (p.pos.to_matrix * p.rot.to_matrix)⁻¹,
                 normal_matrix := ((p.pos.to_matrix * p.rot.to_matrix *
                   p.scale.to_matrix)ᵀ)⁻¹ } ∧
      (p.pos = ⟨0, 0, 0⟩ →
        ((p.pos.to_matrix * p.rot.to_matrix * p.scale.to_matrix)ᵀ)⁻¹ = p.rot.to_matrix)) := by
  have hPinv : p.pos.to_matrix *
      (Translation.mk (-p.pos.x) (-p.pos.y) (-p.pos.z)).to_matrix = 1 :=
    translation_right_inv p.pos.x p.pos.y p.pos.z
  have h1 : IsUnit (p.pos.to_matrix * p.rot.to_matrix).det := by
    apply Matrix.isUnit_det_of_right_inverse
      (B := (p.rot.to_matrix)ᵀ * (Translation.mk (-p.pos.x) (-p.pos.y) (-p.pos.z)).to_matrix)
    rw [mul_assoc, ← mul_assoc p.rot.to_matrix, horth, one_mul, hPinv]
  constructor
  · intro hz
    have h2 : ¬ IsUnit ((p.pos.to_matrix * p.rot.to_matrix * p.scale.to_matrix)ᵀ).det := by
      rw [Matrix.det_transpose, Matrix.det_mul, scale_det]
      rcases hz with h | h | h <;> rw [h] <;> simp [not_isUnit_zero]
    exact Physical.update_error_at_normal h1 h2
  · intro hsc
    have hS : p.scale.to_matrix = 1 := by rw [hsc]; exact scale_uniform_one
    have h2 : IsUnit ((p.pos.to_matrix * p.rot.to_matrix * p.scale.to_matrix)ᵀ).det := by
      rw [hS, mul_one, Matrix.det_transpose]; exact h1
    refine ⟨Physical.update_ok_of h1 h2, ?_⟩
    intro hpos
    have hP : p.pos.to_matrix = 1 := by rw [hpos]; exact translation_zero
    rw [hS, hP, mul_one, one_mul]
    exact Matrix.inv_eq_right_inv (Matrix.mul_eq_one_comm.mp horth)

theorem update_degenerate_and_identity_scale_witness :
    pZeroScale.update = Except.error
      { pZeroScale with
          model_matrix := pZeroScale.pos.to_matrix * pZeroScale.rot.to_matrix *
            pZeroScale.scale.to_matrix,
          view_matrix := (pZeroScale.pos.to_matrix * pZeroScale.rot.to_matrix)⁻¹ } :=
  (update_degenerate_and_identity_scale pZeroScale (euler_orthogonal 0 0 0)).1 (Or.inl rfl)

theorem Physical.update_idem {p q : Physical} (h : p.update = Except.ok q) :
    q.update = Except.ok q := by
  obtain ⟨h1, h2, hq⟩ := Physical.update_ok_elim h
  have hpos : q.pos = p.pos := by rw [hq]
  have hrot : q.rot = p.rot := by rw [hq]
  have hscale : q.scale = p.scale := by rw [hq]
  have h1' : IsUnit (q.pos.to_matrix * q.rot.to_matrix).det := by
    rw [hpos, hrot]; exact h1
  have h2' : IsUnit ((q.pos.to_matrix * q.rot.to_matrix * q.scale.to_matrix)ᵀ).det := by
    rw [hpos, hrot, hscale]; exact h2
  rw [Physical.update_ok_of h1' h2']
  have hm : q.model_matrix = q.pos.to_matrix * q.rot.to_matrix * q.scale.to_matrix := by
    rw [hpos, hrot, hscale, hq]
  have hv : q.view_matrix = (q.pos.to_matrix * q.rot.to_matrix)⁻¹ := by
    rw [hpos, hrot, hq]
  have hnm : q.normal_matrix =
      ((q.pos.to_matrix * q.rot.to_matrix * q.scale.to_matrix)ᵀ)⁻¹ := by
    rw [hpos, hrot, hscale, hq]
  rw [← hnm, ← hv, ← hm]

/-- C10: `update()` is idempotent: a second `update()` on the state a
successful `update()` produced (same primitives, same parent globals)
returns that state unchanged. -/
theorem update_idempotent (n n' : PhysicalNode) (h : n.update = Except.ok n') :
    n'.update = Except.ok n' := by
  cases hu : n.toPhysical.update with
  | error p => rw [PhysicalNode.update_error_of hu] at h; cases h
  | ok p =>
    have hq : p.update = Except.ok p := Physical.update_idem hu
    cases hpar : n.parent with
    | some par =>
      rw [PhysicalNode.update_ok_parent hu hpar] at h
      have hn := except_ok_inj h
      subst hn
      have hu' : ({ n with toPhysical := p,
                            model_matrix_global := par.model_matrix_global * p.model_matrix,
                            normal_matrix_global := par.normal_matrix_global * p.normal_matrix,
                            view_matrix_global := par.normal_matrix_global * p.normal_matrix } :
            PhysicalNode).toPhysical.update = Except.ok p := hq
      have hpar' : ({ n with toPhysical := p,
                             model_matrix_global := par.model_matrix_global * p.model_matrix,
                             normal_matrix_global := par.normal_matrix_global * p.normal_matrix,
                             view_matrix_global := par.normal_matrix_global * p.normal_matrix } :
            PhysicalNode).parent = some par := hpar
      rw [PhysicalNode.update_ok_parent hu' hpar']
    | none =>
      rw [PhysicalNode.update_ok_root hu hpar] at h
      have hn := except_ok_inj h
      subst hn
      have hu' : ({ n with toPhysical := p,
                            model_matrix_global := p.model_matrix,
                            normal_matrix_global := p.normal_matrix,
                            view_matrix_global := p.view_matrix } :
            PhysicalNode).toPhysical.update = Except.ok p := hq
      have hpar' : ({ n with toPhysical := p,
                             model_matrix_global := p.model_matrix,
                             normal_matrix_global := p.normal_matrix,
                             view_matrix_global := p.view_matrix } :
            PhysicalNode).parent = none := hpar
      rw [PhysicalNode.update_ok_root hu' hpar']

theorem update_idempotent_witness : nRootU.update = Except.ok nRootU :=
  update_idempotent nRoot nRootU nRoot_update

end
